import Mathlib

/-!
Shallow embedding of `rtstreamer` (src/main.rs), a single-pass relay that
reads 12-byte-framed media packets from a file and forwards them, paced by
their presentation timestamps, over a kymux TCP link.

Bytes are modelled as `Nat` (values below 256 on real inputs), durations as
`Nat` nanoseconds, and the wall clock as an oracle `clock : Nat → Nat`
giving the elapsed nanoseconds since `start` observed at loop iteration `i`
(`Instant::now()` at line 119 relative to `start` at line 98).  The I/O
performed by one run is modelled as a list of events.
-/

namespace Rtstreamer

/-- Big-endian integer read of a byte list (models `BigEndian::read_u64`
on an 8-byte slice and `BigEndian::read_u32` on a 4-byte slice). -/
def beRead (bs : List Nat) : Nat :=
  bs.foldl (fun a b => a * 256 + b) 0

/-- Mask applied to the 64-bit word to obtain the timestamp
(main.rs line 113: `0x3F_FF_FF_FF_FF_FF_FF_FF`). -/
def ptsMask : Nat := 0x3FFFFFFFFFFFFFFF

/-- Mask selecting the config-packet flag bit
(main.rs line 114: `0x80_00_00_00_00_00_00_00`). -/
def configFlagMask : Nat := 0x8000000000000000

/-- Decoded timestamp of a 12-byte header (main.rs lines 112-113). -/
def ptsOf (header : List Nat) : Nat :=
  beRead (header.take 8) &&& ptsMask

/-- Decoded config-packet flag of a 12-byte header (main.rs line 114). -/
def isConfigOf (header : List Nat) : Bool :=
  beRead (header.take 8) &&& configFlagMask != 0

/-- Decoded payload size of a 12-byte header (main.rs line 115). -/
def payloadSizeOf (header : List Nat) : Nat :=
  beRead ((header.drop 8).take 4)

/-- Re-encoded first header byte for the destination wire format
(main.rs line 132). -/
def reencByte0 (b0 : Nat) : Nat :=
  0x80 ||| ((b0 &&& 0xC0) >>> 1) ||| (b0 &&& 0x1F)

/-- In-place header re-encoding: `header[0] = reencByte0 header[0]`
(main.rs line 132). -/
def reencodeHeader (header : List Nat) : List Nat :=
  header.set 0 (reencByte0 (header.headD 0))

/-- Nanoseconds of `Duration::from_micros` (main.rs line 121). -/
def microsToNanos (pts : Nat) : Nat := pts * 1000

/-- The pacer of main.rs lines 117-126: returns the nanoseconds slept
before a packet is forwarded, `none` when no sleep happens.  `cfg` is the
decoded config flag, `elapsedNs` is `now - start` in nanoseconds. -/
def paceWait (cfg : Bool) (pts elapsedNs : Nat) : Option Nat :=
  if cfg then none
  else if elapsedNs < microsToNanos pts then
    some (microsToNanos pts - elapsedNs)
  else none

/-- One I/O event of a relay run: a write of bytes to the TCP stream, the
single sync-byte read, or a thread sleep measured in nanoseconds. -/
inductive Ev where
  | write (bs : List Nat)
  | readSync
  | sleep (ns : Nat)
deriving DecidableEq, Repr

/-- Sleep events of one loop iteration (main.rs lines 117-126: a single
`thread::sleep` call exactly when the pacer waits). -/
def sleepEvs (cfg : Bool) (pts elapsedNs : Nat) : List Ev :=
  match paceWait cfg pts elapsedNs with
  | some d => [Ev.sleep d]
  | none => []

/-- How the relay loop ended: both `break` sites of main.rs are clean
end-of-stream exits after which `main` returns `Ok(())` — a short read of
the 12-byte header (line 107) or a short payload copy (line 139). -/
inductive RelayExit where
  | doneAtHeader
  | doneAtPayload
deriving DecidableEq, Repr

/-- The relay loop of main.rs lines 103-143 on a pure byte source.  Each
iteration reads up to 12 header bytes (breaking on a shortfall), decodes
them, sleeps per the pacer, writes the 4-byte zero channel prefix, the
re-encoded header and up to `payload_size` payload bytes (`io::copy` with
`set_limit(size)`), and breaks when the copy came up short. -/
def relayLoop (clock : Nat → Nat) (i : Nat) (input : List Nat) :
    List Ev × RelayExit :=
  if h : input.length < 12 then ([], RelayExit.doneAtHeader)
  else
    let header := input.take 12
    let rest := input.drop 12
    let size := payloadSizeOf header
    let evs := sleepEvs (isConfigOf header) (ptsOf header) (clock i)
      ++ [Ev.write [0, 0, 0, 0], Ev.write (reencodeHeader header),
          Ev.write (rest.take size)]
    if size ≤ rest.length then
      (evs ++ (relayLoop clock (i + 1) (rest.drop size)).1,
       (relayLoop clock (i + 1) (rest.drop size)).2)
    else
      (evs, RelayExit.doneAtPayload)
termination_by input.length
decreasing_by
  simp only [List.length_drop]
  omega

/-- Big-endian bytes of a 64-bit integer (`u64::to_be_bytes`,
main.rs line 94). -/
def u64be (n : Nat) : List Nat :=
  (List.range 8).map fun k => n / 256 ^ (7 - k) % 256

/-- The 16-byte block written before the first data packet: 4 zero bytes
of stream/channel id, the ASCII tag "h264", and 8 zero padding bytes
(main.rs line 100). -/
def sidAndCodecPacket : List Nat :=
  [0, 0, 0, 0, 0x68, 0x32, 0x36, 0x34, 0, 0, 0, 0, 0, 0, 0, 0]

/-- One full run of `main` after the TCP connection is up (main.rs lines
94-145): write the 8 big-endian endpoint-id bytes, read the sync byte,
write the sid-and-codec packet, then run the relay loop. -/
def relayRun (clock : Nat → Nat) (endpointId : Nat) (input : List Nat) :
    List Ev × RelayExit :=
  (Ev.write (u64be endpointId) :: Ev.readSync ::
     Ev.write sidAndCodecPacket :: (relayLoop clock 0 input).1,
   (relayLoop clock 0 input).2)

section Helpers

/-- Unfolding lemma for one loop iteration whose 12 header bytes are
available. -/
theorem relayLoop_step (clock : Nat → Nat) (i : Nat) (hdr rest : List Nat)
    (h12 : hdr.length = 12) :
    relayLoop clock i (hdr ++ rest) =
      if payloadSizeOf hdr ≤ rest.length then
        (sleepEvs (isConfigOf hdr) (ptsOf hdr) (clock i)
           ++ [Ev.write [0, 0, 0, 0], Ev.write (reencodeHeader hdr),
               Ev.write (rest.take (payloadSizeOf hdr))]
           ++ (relayLoop clock (i + 1)
                 (rest.drop (payloadSizeOf hdr))).1,
         (relayLoop clock (i + 1) (rest.drop (payloadSizeOf hdr))).2)
      else
        (sleepEvs (isConfigOf hdr) (ptsOf hdr) (clock i)
           ++ [Ev.write [0, 0, 0, 0], Ev.write (reencodeHeader hdr),
               Ev.write rest],
         RelayExit.doneAtPayload) := by
  rw [relayLoop]
  have hlen : (hdr ++ rest).length = 12 + rest.length := by
    simp [h12]
  have hnot : ¬ (hdr ++ rest).length < 12 := by omega
  rw [dif_neg hnot]
  simp only [List.take_left' h12, List.drop_left' h12]
  by_cases hsz : payloadSizeOf hdr ≤ rest.length
  · simp [hsz, List.append_assoc]
  · have : rest.take (payloadSizeOf hdr) = rest :=
      List.take_of_length_le (by omega)
    simp [hsz, this]

/-- The relay loop never reads from the destination: its events are only
writes and sleeps. -/
theorem relayLoop_no_readSync (n : Nat) :
    ∀ (clock : Nat → Nat) (i : Nat) (input : List Nat),
      input.length ≤ n → Ev.readSync ∉ (relayLoop clock i input).1 := by
  induction n with
  | zero =>
    intro clock i input hle
    rw [relayLoop, dif_pos (by omega)]
    simp
  | succ n ih =>
    intro clock i input hle
    rw [relayLoop]
    by_cases hshort : input.length < 12
    · rw [dif_pos hshort]; simp
    · rw [dif_neg hshort]
      simp only []
      set rest := input.drop 12 with hrest
      set size := payloadSizeOf (input.take 12) with hsize
      have hnotmem : Ev.readSync ∉
          sleepEvs (isConfigOf (input.take 12)) (ptsOf (input.take 12))
            (clock i)
          ++ [Ev.write [0, 0, 0, 0],
              Ev.write (reencodeHeader (input.take 12)),
              Ev.write (rest.take size)] := by
        intro hmem
        rcases List.mem_append.1 hmem with hmem | hmem
        · unfold sleepEvs at hmem
          rcases hpw : paceWait (isConfigOf (input.take 12))
              (ptsOf (input.take 12)) (clock i) with _ | d <;>
            rw [hpw] at hmem <;> simp at hmem
        · simp at hmem
      by_cases hsz : size ≤ rest.length
      · rw [if_pos hsz]
        intro hmem
        rcases List.mem_append.1 hmem with hmem | hmem
        · exact hnotmem hmem
        · have hlt : rest.length - size ≤ n := by
            have : rest.length = input.length - 12 := by
              rw [hrest]; simp
            omega
          exact ih clock (i + 1) (rest.drop size)
            (by simpa using hlt) hmem
      · rw [if_neg hsz]
        intro hmem
        exact hnotmem (by simpa using hmem)

end Helpers

/-- C1: re-encoding for the destination changes only byte 0 of the header:
the output first byte is `0x80 ||| ((b0 &&& 0xC0) >>> 1) ||| (b0 &&& 0x1F)`
where `b0` is the original first byte, and all remaining bytes (bytes 1-11
of a 12-byte header) are left unmodified. -/
theorem reencode_changes_only_byte0 (b0 : Nat) (bs : List Nat) :
    reencodeHeader (b0 :: bs)
      = (0x80 ||| ((b0 &&& 0xC0) >>> 1) ||| (b0 &&& 0x1F)) :: bs := rfl

/-- C2: absolute pacing for non-config packets: with `target = pts` treated
as microseconds since session start and `elapsedNs = now - start`, the
pacer sleeps exactly `target - elapsed` when `target > elapsed`, sleeps
nothing otherwise, and every sleep it performs is strictly positive (never
a zero-clamped catch-up); the wait depends only on the packet's own
timestamp and the current clock, so a late packet never accelerates later
ones. -/
theorem pacer_absolute (pts elapsedNs : Nat) :
    (elapsedNs < pts * 1000 →
       paceWait false pts elapsedNs = some (pts * 1000 - elapsedNs))
  ∧ (pts * 1000 ≤ elapsedNs → paceWait false pts elapsedNs = none)
  ∧ (∀ d, paceWait false pts elapsedNs = some d →
       d = pts * 1000 - elapsedNs ∧ 0 < d) := by
  refine ⟨?_, ?_, ?_⟩
  · intro hlt
    simp [paceWait, microsToNanos, hlt]
  · intro hge
    simp [paceWait, microsToNanos, Nat.not_lt.2 hge]
  · intro d hd
    simp [paceWait, microsToNanos] at hd
    omega

/-- Witness for C2 at pts = 5 microseconds, elapsed = 3000 nanoseconds. -/
theorem pacer_absolute_w : paceWait false 5 3000 = some 2000 :=
  (pacer_absolute 5 3000).1 (by norm_num)

/-- C3: a packet whose decoded config flag is set is forwarded with no
sleep at all, whatever its timestamp: the pacer returns `none` for every
config packet, the iteration emits no sleep event, and the iteration's
events begin directly with the three writes. -/
theorem config_unpaced (clock : Nat → Nat) (i : Nat) (hdr rest : List Nat)
    (h12 : hdr.length = 12) (hcfg : isConfigOf hdr = true) :
    (∀ pts e, paceWait true pts e = none)
  ∧ sleepEvs (isConfigOf hdr) (ptsOf hdr) (clock i) = []
  ∧ (relayLoop clock i (hdr ++ rest)).1.take 3 =
      [Ev.write [0, 0, 0, 0], Ev.write (reencodeHeader hdr),
       Ev.write (rest.take (payloadSizeOf hdr))] := by
  have hnone : ∀ pts e, paceWait true pts e = none := by
    intro pts e
    simp [paceWait]
  have hsleep : sleepEvs (isConfigOf hdr) (ptsOf hdr) (clock i) = [] := by
    rw [hcfg]
    unfold sleepEvs
    rw [hnone]
  refine ⟨hnone, hsleep, ?_⟩
  rw [relayLoop_step clock i hdr rest h12]
  by_cases hsz : payloadSizeOf hdr ≤ rest.length
  · rw [if_pos hsz]
    simp [hsleep]
  · rw [if_neg hsz]
    have htake : rest.take (payloadSizeOf hdr) = rest :=
      List.take_of_length_le (by omega)
    simp [hsleep, htake]

/-- Witness for C3 on a concrete config-packet header. -/
theorem config_unpaced_w :
    (relayLoop (fun _ => 0) 0
        ([0x80, 0, 0, 0, 0, 0, 0, 0, 0, 0, 0, 1] ++ [0xAB])).1.take 3 =
      [Ev.write [0, 0, 0, 0],
       Ev.write (reencodeHeader [0x80, 0, 0, 0, 0, 0, 0, 0, 0, 0, 0, 1]),
       Ev.write ([0xAB].take
         (payloadSizeOf [0x80, 0, 0, 0, 0, 0, 0, 0, 0, 0, 0, 1]))] :=
  (config_unpaced (fun _ => 0) 0 [0x80, 0, 0, 0, 0, 0, 0, 0, 0, 0, 0, 1]
    [0xAB] (by decide) (by decide)).2.2

/-- C4: header decode: the config flag is bit 63 of the big-endian 64-bit
word over bytes 0-7, the timestamp is that word reduced to its low 62 bits
(the `0x3FFFFFFFFFFFFFFF` mask), and the payload size is the big-endian
32-bit read of bytes 8-11. -/
theorem decode_fields (h : List Nat) :
    isConfigOf h = (beRead (h.take 8)).testBit 63
  ∧ ptsOf h = beRead (h.take 8) % 2 ^ 62
  ∧ payloadSizeOf h = beRead ((h.drop 8).take 4) := by
  refine ⟨?_, ?_, rfl⟩
  · unfold isConfigOf configFlagMask
    have hm : (0x8000000000000000 : Nat) = 2 ^ 63 := by norm_num
    rw [hm, Nat.and_two_pow]
    cases h63 : (beRead (h.take 8)).testBit 63 <;> simp [h63]
  · unfold ptsOf ptsMask
    have hm : (0x3FFFFFFFFFFFFFFF : Nat) = 2 ^ 62 - 1 := by norm_num
    rw [hm, Nat.and_pow_two_sub_one_eq_mod]

/-- C5 counterexample: the decode mask keeps bit 61, so the decoded
timestamp does not always fit in 58 bits: on the header whose first byte
is 0x20 the decoded timestamp is 2^61, whose high 6 bits are not zero. -/
theorem pts_mask_keeps_bit61 :
    ptsOf [0x20, 0, 0, 0, 0, 0, 0, 0, 0, 0, 0, 0] = 2 ^ 61
  ∧ ¬ ptsOf [0x20, 0, 0, 0, 0, 0, 0, 0, 0, 0, 0, 0] < 2 ^ 58 := by
  decide

/-- C5 amended: the decoded timestamp has only 62 significant bits: the
high 2 bits (bits 63 and 62, the two flag bits) of the decoded 64-bit
value are always zero. -/
theorem pts_fits_62_bits (h : List Nat) : ptsOf h < 2 ^ 62 := by
  unfold ptsOf
  exact lt_of_le_of_lt Nat.and_le_right (by norm_num [ptsMask])

/-- C6: steady-state framing: when the full payload is available, the
iteration writes, in order and with nothing interleaved, the 4-byte
all-zero channel prefix, the 12-byte re-encoded header, and exactly
`payload_size` payload bytes copied from the source, before the loop
continues with the next packet. -/
theorem framing_full_payload (clock : Nat → Nat) (i : Nat)
    (hdr rest : List Nat) (h12 : hdr.length = 12)
    (hsz : payloadSizeOf hdr ≤ rest.length) :
    (relayLoop clock i (hdr ++ rest)).1 =
      sleepEvs (isConfigOf hdr) (ptsOf hdr) (clock i)
        ++ [Ev.write [0, 0, 0, 0], Ev.write (reencodeHeader hdr),
            Ev.write (rest.take (payloadSizeOf hdr))]
        ++ (relayLoop clock (i + 1) (rest.drop (payloadSizeOf hdr))).1
  ∧ (rest.take (payloadSizeOf hdr)).length = payloadSizeOf hdr
  ∧ (reencodeHeader hdr).length = 12 := by
  refine ⟨?_, ?_, ?_⟩
  · rw [relayLoop_step clock i hdr rest h12, if_pos hsz]
  · rw [List.length_take]
    omega
  · unfold reencodeHeader
    rw [List.length_set]
    exact h12

/-- Witness for C6 on a 2-byte payload fully available from the source. -/
theorem framing_full_payload_w :
    (relayLoop (fun _ => 0) 0
        ([0, 0, 0, 0, 0, 0, 0, 0, 0, 0, 0, 2] ++ [7, 9, 5])).1 =
      sleepEvs (isConfigOf [0, 0, 0, 0, 0, 0, 0, 0, 0, 0, 0, 2])
          (ptsOf [0, 0, 0, 0, 0, 0, 0, 0, 0, 0, 0, 2]) 0
        ++ [Ev.write [0, 0, 0, 0],
            Ev.write (reencodeHeader [0, 0, 0, 0, 0, 0, 0, 0, 0, 0, 0, 2]),
            Ev.write ([7, 9, 5].take
              (payloadSizeOf [0, 0, 0, 0, 0, 0, 0, 0, 0, 0, 0, 2]))]
        ++ (relayLoop (fun _ => 0) 1
              ([7, 9, 5].drop
                (payloadSizeOf [0, 0, 0, 0, 0, 0, 0, 0, 0, 0, 0, 2]))).1 :=
  (framing_full_payload (fun _ => 0) 0 [0, 0, 0, 0, 0, 0, 0, 0, 0, 0, 0, 2]
    [7, 9, 5] (by decide) (by decide)).1

/-- C7: handshake ordering: the run's events start with the write of the
8 big-endian endpoint-id bytes, then the single sync-byte read, then the
write of the 16-byte codec-announcement block, before any relay-loop
event; the big-endian bytes decode back to the endpoint id, and the loop
itself never reads, so the sync read happens exactly once per run. -/
theorem handshake_first (clock : Nat → Nat) (endpointId : Nat)
    (input : List Nat) :
    (relayRun clock endpointId input).1 =
      Ev.write (u64be endpointId) :: Ev.readSync ::
        Ev.write sidAndCodecPacket :: (relayLoop clock 0 input).1
  ∧ (u64be endpointId).length = 8
  ∧ (endpointId < 2 ^ 64 → beRead (u64be endpointId) = endpointId)
  ∧ sidAndCodecPacket.length = 16
  ∧ Ev.readSync ∉ (relayLoop clock 0 input).1 := by
  refine ⟨rfl, by simp [u64be], ?_, rfl,
    relayLoop_no_readSync input.length clock 0 input le_rfl⟩
  intro hlt
  simp [u64be, beRead, List.range_succ]
  omega

/-- Witness for C7: the big-endian bytes of a concrete 64-bit endpoint id
decode back to it. -/
theorem handshake_first_w :
    beRead (u64be 81985529216486895) = 81985529216486895 :=
  (handshake_first (fun _ => 0) 81985529216486895 []).2.2.1 (by norm_num)

/-- C8: a source yielding fewer than 12 bytes where a header is expected
(including 0 bytes) ends the loop in the clean header-EOF state with no
event at all for that iteration, and the run's output is then only the
handshake bytes. -/
theorem short_header_clean (clock : Nat → Nat) (i endpointId : Nat)
    (input : List Nat) (hshort : input.length < 12) :
    relayLoop clock i input = ([], RelayExit.doneAtHeader)
  ∧ (relayRun clock endpointId input).1 =
      [Ev.write (u64be endpointId), Ev.readSync,
       Ev.write sidAndCodecPacket] := by
  have hloop : ∀ j, relayLoop clock j input = ([], RelayExit.doneAtHeader) := by
    intro j
    rw [relayLoop, dif_pos hshort]
  refine ⟨hloop i, ?_⟩
  unfold relayRun
  rw [hloop 0]

/-- Witness for C8 on the empty source. -/
theorem short_header_clean_w :
    relayLoop (fun _ => 0) 0 [] = ([], RelayExit.doneAtHeader) :=
  (short_header_clean (fun _ => 0) 0 5 [] (by simp)).1

/-- C9: a source yielding a full 12-byte header but fewer than
`payload_size` payload bytes forwards the prefix, the re-encoded header
and every payload byte actually available, then ends in the clean
payload-EOF state with no further packet read or paced. -/
theorem truncated_payload_clean (clock : Nat → Nat) (i : Nat)
    (hdr rest : List Nat) (h12 : hdr.length = 12)
    (htrunc : rest.length < payloadSizeOf hdr) :
    relayLoop clock i (hdr ++ rest) =
      (sleepEvs (isConfigOf hdr) (ptsOf hdr) (clock i)
         ++ [Ev.write [0, 0, 0, 0], Ev.write (reencodeHeader hdr),
             Ev.write rest],
       RelayExit.doneAtPayload) := by
  rw [relayLoop_step clock i hdr rest h12, if_neg (by omega)]

/-- Witness for C9 on a header declaring 5 payload bytes over a source
holding only 2. -/
theorem truncated_payload_clean_w :
    relayLoop (fun _ => 0) 0
        ([0, 0, 0, 0, 0, 0, 0, 0, 0, 0, 0, 5] ++ [1, 2]) =
      (sleepEvs (isConfigOf [0, 0, 0, 0, 0, 0, 0, 0, 0, 0, 0, 5])
          (ptsOf [0, 0, 0, 0, 0, 0, 0, 0, 0, 0, 0, 5]) 0
         ++ [Ev.write [0, 0, 0, 0],
             Ev.write (reencodeHeader [0, 0, 0, 0, 0, 0, 0, 0, 0, 0, 0, 5]),
             Ev.write [1, 2]],
       RelayExit.doneAtPayload) :=
  truncated_payload_clean (fun _ => 0) 0 [0, 0, 0, 0, 0, 0, 0, 0, 0, 0, 0, 5]
    [1, 2] (by decide) (by decide)

/-- C10: the re-encoding formula discards bit 5 (mask 0x20) of the
original first header byte — bit 61 of the 64-bit word, the most
significant retained timestamp bit: two first bytes differing only in
bit 5 re-encode to the same output byte. -/
theorem reencode_discards_bit5 (b0 : Nat) :
    reencByte0 (b0 ^^^ 0x20) = reencByte0 b0 := by
  unfold reencByte0
  rw [Nat.and_xor_distrib_right, Nat.and_xor_distrib_right]
  have h1 : (0x20 &&& 0xC0 : Nat) = 0 := by decide
  have h2 : (0x20 &&& 0x1F : Nat) = 0 := by decide
  rw [h1, h2, Nat.xor_zero, Nat.xor_zero]

end Rtstreamer
